import Mathlib

/-!
Verification of the standalone address descriptor leaf (`descriptor/addr.rs`)
of rust-miniscript, as a shallow embedding in Lean 4.

The core under `src/` is `addr.rs` alone.  Its collaborators — the bitcoin
address library (`Address`, `Payload`, `AddressType`), the descriptor
checksum primitive (`desc_checksum` / `verify_checksum`) and the generic
expression-tree parser (`expression::Tree::from_str`) — are external to the
core and are modelled here from the specification's interface descriptions.
-/

set_option maxHeartbeats 1000000

namespace AddrDesc

/-- Modelled from the spec: the address payload of the external bitcoin
address library, "an explicit sum type (legacy hash, segwit-v0 hash,
witness-program-with-version)".  Hashes and programs are byte lists;
a witness version is a natural number tag (v0 = hash-based, v1 = taproot). -/
inductive Payload where
  | PubkeyHash (hash : List Nat)
  | ScriptHash (hash : List Nat)
  | WitnessProgram (version : Nat) (program : List Nat)
deriving DecidableEq, Repr

/-- Modelled from the spec: the network tag carried by a validated address. -/
inductive Network where
  | Bitcoin
  | Testnet
  | Signet
  | Regtest
deriving DecidableEq, Repr

/-- Modelled from the spec: "an immutable, validated value carrying a network
tag and a payload classified into output types". -/
structure Address where
  payload : Payload
  network : Network
deriving DecidableEq, Repr

/-- Modelled from the spec: the output-type classification produced by the
external address library. -/
inductive AddressType where
  | P2pkh
  | P2sh
  | P2wpkh
  | P2wsh
  | P2tr
deriving DecidableEq, Repr

/-- Modelled from the spec: the external library's classification of an
address payload into an output type.  Legacy hashes classify directly;
witness programs classify by version and program length (v0 with a 20-byte
program is P2WPKH, v0 with a 32-byte program is P2WSH, v1 with a 32-byte
program is taproot); "a witness program with a future version or a
non-standard program length" has no classification. -/
def Address.address_type (a : Address) : Option AddressType :=
  match a.payload with
  | .PubkeyHash _ => some .P2pkh
  | .ScriptHash _ => some .P2sh
  | .WitnessProgram version program =>
      if version = 0 then
        if program.length = 20 then some .P2wpkh
        else if program.length = 32 then some .P2wsh
        else none
      else if version = 1 ∧ program.length = 32 then some .P2tr
      else none

/-- Modelled from the spec: an output script.  Script values are "computed
values, not stored state"; we keep them as a sum mirroring the three payload
shapes they are derived from. -/
inductive Script where
  | p2pkh (hash : List Nat)
  | p2sh (hash : List Nat)
  | witness (version : Nat) (program : List Nat)
deriving DecidableEq, Repr

/-- Modelled from the spec: the external library's map from a payload to its
output script ("script pubkey"), "always succeeds, pure function of the
payload classification". -/
def Payload.script_pubkey : Payload → Script
  | .PubkeyHash h => .p2pkh h
  | .ScriptHash h => .p2sh h
  | .WitnessProgram v p => .witness v p

/-- Modelled from the spec: `Address::script_pubkey` delegates to the
payload's script derivation. -/
def Address.script_pubkey (a : Address) : Script :=
  a.payload.script_pubkey

/-- Modelled from the spec: the error produced by the external
address-parsing collaborator, "propagated, not swallowed". -/
structure AddrParseError where
  msg : String
deriving DecidableEq, Repr

/-- The error type surfaced by this core (the variants of `crate::Error`
that `addr.rs` constructs or propagates). -/
inductive Error where
  | AddrNoExplicitScript
  | AddrNoScriptCode
  | Unexpected (s : String)
  | BadDescriptor (s : String)
  | AddrError (e : AddrParseError)
  | ExprParseError (s : String)
deriving DecidableEq, Repr

/-- `pub struct Addr { address: Address }` — a standalone address
descriptor. -/
structure Addr where
  address : Address
deriving DecidableEq, Repr

/-- `Addr::new` — create a new address descriptor.  Total; the address is
assumed to have been checked as valid during construction. -/
def Addr.new (address : Address) : Addr :=
  ⟨address⟩

/-- `Addr::into_inner` — get the inner address (consuming). -/
def Addr.into_inner (a : Addr) : Address :=
  a.address

/-- `Addr::as_inner` — get the inner address (borrowing). -/
def Addr.as_inner (a : Addr) : Address :=
  a.address

/-- `Addr::sanity_check` — checks whether the descriptor is safe. -/
def Addr.sanity_check (_ : Addr) : Except Error Unit :=
  .ok ()

/-- `Addr::script_pubkey` — the script pubkey for this descriptor. -/
def Addr.script_pubkey (a : Addr) : Script :=
  a.address.script_pubkey

/-- `Addr::segwit_version` — the segwit version for the contained address:
matches `Payload::WitnessProgram { version, .. } => Some(version)` and
`_ => None`. -/
def Addr.segwit_version (a : Addr) : Option Nat :=
  match a.address.payload with
  | .WitnessProgram version _ => some version
  | _ => none

/-- `Addr::explicit_script` — `Ok(self.address.payload.script_pubkey())` for
`Some(AddressType::P2pkh | AddressType::P2wpkh)`, otherwise
`Err(Error::AddrNoExplicitScript)`. -/
def Addr.explicit_script (a : Addr) : Except Error Script :=
  match a.address.address_type with
  | some .P2pkh | some .P2wpkh => .ok a.address.payload.script_pubkey
  | _ => .error .AddrNoExplicitScript

/-- `Addr::script_code` — `Err(Error::AddrNoScriptCode)` for
`Some(AddressType::P2tr)`, otherwise `Ok(self.script_pubkey())`. -/
def Addr.script_code (a : Addr) : Except Error Script :=
  match a.address.address_type with
  | some .P2tr => .error .AddrNoScriptCode
  | _ => .ok a.script_pubkey

/-- Modelled from the spec: the node type produced by the external
expression-tree parser — "a node with a name and an ordered sequence of
argument nodes". -/
inductive Tree where
  | mk (name : String) (args : List Tree)

/-- The name of an expression-tree node. -/
def Tree.name : Tree → String
  | .mk n _ => n

/-- The argument nodes of an expression-tree node. -/
def Tree.args : Tree → List Tree
  | .mk _ a => a

/-- `Addr::from_tree` — accepts exactly the shape `addr` with one argument,
parsing that argument's name as an address with the supplied address-parsing
collaborator `dec`; any other name or arity yields
`Error::Unexpected("{name}({n} args) while parsing addr descriptor")`. -/
def Addr.from_tree (dec : String → Except AddrParseError Address)
    (top : Tree) : Except Error Addr :=
  if top.name = "addr" ∧ top.args.length = 1 then
    match dec (top.args.headD (.mk "" [])).name with
    | .ok a => .ok (Addr.new a)
    | .error e => .error (.AddrError e)
  else
    .error (.Unexpected
      (top.name ++ "(" ++ toString top.args.length ++
        " args) while parsing addr descriptor"))

/-- `Addr::to_string_no_checksum` — `format!("addr({})", self.address)`,
with the collaborator's address encoding passed as `enc`. -/
def Addr.to_string_no_checksum (enc : Address → String) (a : Addr) : String :=
  "addr(" ++ enc a.address ++ ")"

/-- `<Addr as Display>::fmt` — the no-checksum form, `#`, then the checksum
computed over the no-checksum form by the external checksum primitive
`ck`. -/
def Addr.display (enc : Address → String) (ck : String → String)
    (a : Addr) : String :=
  let desc := a.to_string_no_checksum enc
  desc ++ "#" ++ ck desc

/-- Split a character list at its first `#`, returning the parts before and
after it, or `none` when there is no `#`. -/
def splitAtHash : List Char → Option (List Char × List Char)
  | [] => none
  | c :: cs =>
      if c = '#' then some ([], cs)
      else (splitAtHash cs).map (fun p => (c :: p.1, p.2))

/-- Modelled from the spec: `verify_checksum` of the external checksum
primitive — on an input carrying a trailing `#<checksum>` segment, recompute
the checksum of the leading part with `ck` and compare; "on mismatch, fail
with a checksum error.  On success, obtain the input string with checksum
stripped."  Input without a checksum segment is accepted as is ("parsing
accepts input with or without ... the checksum segment"). -/
def verify_checksum (ck : String → String) (s : String) : Except Error String :=
  match splitAtHash s.toList with
  | none => .ok s
  | some (body, sum) =>
      let bodyStr := String.mk body
      if ck bodyStr = String.mk sum then .ok bodyStr
      else .error (.BadDescriptor "Invalid checksum")

/-- A character that may appear in an expression-tree node name: anything
other than the structural characters `(`, `)` and `,`. -/
def isNameChar (c : Char) : Bool :=
  c ≠ '(' && c ≠ ')' && c ≠ ','

mutual

/-- Modelled from the spec: one parsing step of the external generic
expression-tree parser that "tokenizes `name(arg1,arg2,...)` syntax": read a
name (characters other than `(`, `)` and `,`); a following `(` opens a
comma-separated argument list closed by `)`.  Returns the node and the
unconsumed characters.  `fuel` bounds the recursion depth. -/
def parseTree : Nat → List Char → Except Error (Tree × List Char)
  | 0, _ => .error (.ExprParseError "expression nesting too deep")
  | fuel + 1, cs =>
      let name := String.mk (cs.takeWhile isNameChar)
      match cs.dropWhile isNameChar with
      | [] => .ok (.mk name [], [])
      | c :: rest =>
          if c = '(' then
            match parseArgs fuel rest with
            | .ok (args, rest2) =>
                match rest2 with
                | c2 :: rest3 =>
                    if c2 = ')' then .ok (.mk name args, rest3)
                    else .error (.ExprParseError "expected closing parenthesis")
                | [] => .error (.ExprParseError "expected closing parenthesis")
            | .error e => .error e
          else .ok (.mk name [], c :: rest)

/-- Modelled from the spec: the argument-list part of the expression-tree
parser — one subexpression, then further subexpressions after each `,`. -/
def parseArgs : Nat → List Char → Except Error (List Tree × List Char)
  | 0, _ => .error (.ExprParseError "expression nesting too deep")
  | fuel + 1, cs =>
      match parseTree fuel cs with
      | .ok (t, rest) =>
          match rest with
          | c :: rest2 =>
              if c = ',' then
                match parseArgs fuel rest2 with
                | .ok (ts, rest3) => .ok (t :: ts, rest3)
                | .error e => .error e
              else .ok ([t], c :: rest2)
          | [] => .ok ([t], [])
      | .error e => .error e

end

/-- Modelled from the spec: `expression::Tree::from_str` — parse a whole
string as one expression tree, requiring all input to be consumed. -/
def Tree.from_str (s : String) : Except Error Tree :=
  match parseTree (s.length + 1) s.toList with
  | .ok (t, []) => .ok t
  | .ok (_, _ :: _) => .error (.ExprParseError "trailing characters")
  | .error e => .error e

/-- `<Addr as FromStr>::from_str` — verify the checksum first, parse the
stripped string as an expression tree, then build the descriptor with
`Addr.from_tree`. -/
def Addr.from_str (ck : String → String)
    (dec : String → Except AddrParseError Address)
    (s : String) : Except Error Addr :=
  match verify_checksum ck s with
  | .ok desc_str =>
      match Tree.from_str desc_str with
      | .ok top => Addr.from_tree dec top
      | .error e => .error e
  | .error e => .error e

/-- `<Addr as TranslatePk>::translate_pk` — ignores both translation
functions and returns `Ok(Addr::new(self.address.clone()))`.  The key,
key-hash and error types of the generic signature are type parameters. -/
def Addr.translate_pk {P Q PH QH E : Type} (a : Addr)
    (_fpk : P → Except E Q) (_fpkh : PH → Except E QH) : Except E Addr :=
  .ok (Addr.new a.address)

/-! ## Helper lemmas -/

/-- `from_tree` on a well-shaped `addr` node with one argument reduces to
the address parser's verdict on the argument's name. -/
theorem from_tree_addr_single
    (dec : String → Except AddrParseError Address)
    (nm : String) (children : List Tree) :
    Addr.from_tree dec (.mk "addr" [.mk nm children]) =
      match dec nm with
      | .ok a => .ok (Addr.new a)
      | .error e => .error (.AddrError e) := by
  rw [Addr.from_tree, if_pos]
  · rfl
  · exact ⟨rfl, rfl⟩

/-- `splitAtHash` finds the first `#`: on a list with a hash-free prefix it
returns that prefix and the remainder. -/
theorem splitAtHash_append (l₁ l₂ : List Char) (h : ∀ c ∈ l₁, c ≠ '#') :
    splitAtHash (l₁ ++ '#' :: l₂) = some (l₁, l₂) := by
  induction l₁ with
  | nil => simp [splitAtHash]
  | cons a l ih =>
      have ha : a ≠ '#' := h a (List.mem_cons_self a l)
      have ih' := ih (fun c hc => h c (List.mem_cons_of_mem a hc))
      simp [splitAtHash, ha, ih']

/-- `takeWhile`/`dropWhile` on a list whose prefix satisfies the predicate
and whose next element does not. -/
theorem takeWhile_dropWhile_append (p : Char → Bool) (l : List Char)
    (d : Char) (r : List Char) (h : ∀ c ∈ l, p c = true) (hd : p d = false) :
    (l ++ d :: r).takeWhile p = l ∧ (l ++ d :: r).dropWhile p = d :: r := by
  induction l with
  | nil => simp [List.takeWhile_cons, List.dropWhile_cons, hd]
  | cons a l ih =>
      have ha : p a = true := h a (List.mem_cons_self a l)
      have ih' := ih (fun c hc => h c (List.mem_cons_of_mem a hc))
      simp [List.takeWhile_cons, List.dropWhile_cons, ha, ih'.1, ih'.2]

/-- The parser on a bare name followed by a non-name, non-`(` character:
the name becomes a leaf node and nothing past it is consumed. -/
theorem parseTree_leaf (f : Nat) (cs : List Char) (d : Char) (r : List Char)
    (h : ∀ c ∈ cs, isNameChar c = true) (hd : isNameChar d = false)
    (hdp : d ≠ '(') :
    parseTree (f + 1) (cs ++ d :: r) = .ok (.mk (String.mk cs) [], d :: r) := by
  obtain ⟨ht, hdw⟩ := takeWhile_dropWhile_append isNameChar cs d r h hd
  rw [parseTree]
  simp only [ht, hdw]
  rw [if_neg hdp]

/-- The argument-list parser on a single bare name followed by `)`. -/
theorem parseArgs_single (f : Nat) (cs : List Char)
    (h : ∀ c ∈ cs, isNameChar c = true) :
    parseArgs (f + 2) (cs ++ [')']) = .ok ([.mk (String.mk cs) []], [')']) := by
  have hleaf := parseTree_leaf f cs ')' [] h (by decide) (by decide)
  rw [parseArgs, hleaf]
  rfl

/-- The parser on `addr(<name>)` yields the two-level tree and consumes all
input. -/
theorem parseTree_addr (f : Nat) (cs : List Char)
    (h : ∀ c ∈ cs, isNameChar c = true) :
    parseTree (f + 3) ('a' :: 'd' :: 'd' :: 'r' :: '(' :: (cs ++ [')'])) =
      .ok (.mk "addr" [.mk (String.mk cs) []], []) := by
  have harg := parseArgs_single f cs h
  have ht : List.takeWhile isNameChar
      ('a' :: 'd' :: 'd' :: 'r' :: '(' :: (cs ++ [')'])) =
      ['a', 'd', 'd', 'r'] := rfl
  have hdw : List.dropWhile isNameChar
      ('a' :: 'd' :: 'd' :: 'r' :: '(' :: (cs ++ [')'])) =
      '(' :: (cs ++ [')']) := rfl
  rw [parseTree]
  simp only [ht, hdw]
  rw [harg]
  rfl

/-- `Tree.from_str` on the serialized form `addr(<S>)` of a name `S` made of
name characters. -/
theorem tree_from_str_addr (S : String)
    (h : ∀ c ∈ S.toList, isNameChar c = true) :
    Tree.from_str ("addr(" ++ S ++ ")") = .ok (.mk "addr" [.mk S []]) := by
  have hlen : ("addr(" ++ S ++ ")").length + 1 = (S.length + 4) + 3 := by
    rw [String.length_append, String.length_append]
    have h5 : "addr(".length = 5 := rfl
    have h1 : ")".length = 1 := rfl
    omega
  have hdata : ("addr(" ++ S ++ ")").toList =
      'a' :: 'd' :: 'd' :: 'r' :: '(' :: (S.toList ++ [')']) := by
    show (("addr(" ++ S) ++ ")").data = _
    rw [String.data_append, String.data_append]
    simp [String.toList, List.append_assoc]
  have hmk : String.mk S.toList = S := rfl
  rw [Tree.from_str, hlen, hdata, parseTree_addr (S.length + 4) S.toList h, hmk]

/-! ## Theorems -/

/-- C2: `explicit_script()` succeeds — returning the payload's script
pubkey — exactly when the address's output type is P2PKH or P2WPKH, and
fails with the "no explicit script" error for every other output type
(including P2SH, P2WSH, taproot, and unclassified types). -/
theorem explicit_script_characterization (a : Addr) :
    a.explicit_script =
      if a.address.address_type = some AddressType.P2pkh ∨
          a.address.address_type = some AddressType.P2wpkh then
        .ok a.address.payload.script_pubkey
      else
        .error .AddrNoExplicitScript := by
  unfold Addr.explicit_script
  rcases h : a.address.address_type with _ | t
  · simp
  · cases t <;> simp

/-- C3: `script_code()` fails with the "no script code" error exactly when
the address's output type is taproot, and otherwise succeeds returning
`script_pubkey()`. -/
theorem script_code_characterization (a : Addr) :
    a.script_code =
      if a.address.address_type = some AddressType.P2tr then
        .error .AddrNoScriptCode
      else
        .ok a.script_pubkey := by
  unfold Addr.script_code
  rcases h : a.address.address_type with _ | t
  · simp
  · cases t <;> simp

/-- C6: `translate_pk` ignores both supplied translation functions — the
result is the same success value, carrying the original address, for every
choice of functions (including ones that always fail). -/
theorem translate_pk_identity {P Q PH QH E : Type} (a : Addr)
    (fpk : P → Except E Q) (fpkh : PH → Except E QH) :
    a.translate_pk fpk fpkh = .ok (Addr.new a.address) :=
  rfl

/-- C7: `segwit_version()` returns `some v` with `v` the payload's witness
version exactly when the payload is a witness program, and `none` for every
non-witness-program (legacy hash-based) payload. -/
theorem segwit_version_characterization (a : Addr) :
    (∀ v prog, a.address.payload = .WitnessProgram v prog →
      a.segwit_version = some v) ∧
    ((∀ v prog, a.address.payload ≠ .WitnessProgram v prog) →
      a.segwit_version = none) := by
  constructor
  · intro v prog h
    unfold Addr.segwit_version
    rw [h]
  · intro h
    unfold Addr.segwit_version
    rcases hp : a.address.payload with h1 | h1 | ⟨v, prog⟩
    · rfl
    · rfl
    · exact absurd hp (h v prog)

/-- Witness for C7: a segwit v0 program address reports version 0; a legacy
pubkey-hash address reports no witness version. -/
theorem segwit_version_characterization_witness :
    (Addr.new ⟨.WitnessProgram 0 [1], .Bitcoin⟩).segwit_version = some 0 ∧
    (Addr.new ⟨.PubkeyHash [1], .Bitcoin⟩).segwit_version = none :=
  ⟨(segwit_version_characterization _).1 0 [1] rfl,
   (segwit_version_characterization _).2 (fun _ _ h => Payload.noConfusion h)⟩

/-- C8: `sanity_check()` always succeeds for the address descriptor. -/
theorem sanity_check_always_ok (a : Addr) : a.sanity_check = .ok () :=
  rfl

/-- C4: `from_tree` constructs a descriptor only when the node name is
exactly `"addr"` with exactly one argument; any other name or arity fails
with an "unexpected expression" error carrying the observed name and
argument count. -/
theorem from_tree_shape_enforcement
    (dec : String → Except AddrParseError Address) (top : Tree) :
    ((∃ a, Addr.from_tree dec top = .ok a) →
      top.name = "addr" ∧ top.args.length = 1) ∧
    (¬(top.name = "addr" ∧ top.args.length = 1) →
      Addr.from_tree dec top =
        .error (.Unexpected (top.name ++ "(" ++ toString top.args.length ++
          " args) while parsing addr descriptor"))) := by
  constructor
  · intro ⟨a, ha⟩
    by_contra h
    rw [Addr.from_tree, if_neg h] at ha
    exact Except.noConfusion ha
  · intro h
    rw [Addr.from_tree, if_neg h]

/-- Witness for C4: a wrong name (`notaddr(X)`) and a wrong arity
(`addr(X,Y)`) both fail with the malformed-expression error, whatever the
address parser would say. -/
theorem from_tree_shape_enforcement_witness :
    Addr.from_tree (fun s => .ok ⟨.PubkeyHash [s.length], .Bitcoin⟩)
        (.mk "notaddr" [.mk "X" []]) =
      .error (.Unexpected ("notaddr" ++ "(" ++ toString 1 ++
        " args) while parsing addr descriptor")) ∧
    Addr.from_tree (fun s => .ok ⟨.PubkeyHash [s.length], .Bitcoin⟩)
        (.mk "addr" [.mk "X" [], .mk "Y" []]) =
      .error (.Unexpected ("addr" ++ "(" ++ toString 2 ++
        " args) while parsing addr descriptor")) :=
  ⟨(from_tree_shape_enforcement _ _).2 (by decide),
   (from_tree_shape_enforcement _ _).2 (by decide)⟩

/-- C9: `from_tree` looks only at the name of its single argument node and
ignores that node's own children: for a tree `addr(nm(...))` the argument's
bare name `nm` goes to address parsing, and any failure surfaces as the
propagated invalid-address error, never as an unexpected-expression
error. -/
theorem from_tree_ignores_arg_children
    (dec : String → Except AddrParseError Address)
    (nm : String) (children : List Tree) :
    Addr.from_tree dec (.mk "addr" [.mk nm children]) =
      match dec nm with
      | .ok a => .ok (Addr.new a)
      | .error e => .error (.AddrError e) :=
  from_tree_addr_single dec nm children

/-- C10: on an address with no recognised output-type classification,
`explicit_script()` fails with the "no explicit script" error while
`script_code()` still succeeds and returns `script_pubkey()`. -/
theorem unknown_classification_asymmetry (a : Addr)
    (h : a.address.address_type = none) :
    a.explicit_script = .error .AddrNoExplicitScript ∧
    a.script_code = .ok a.script_pubkey := by
  constructor
  · unfold Addr.explicit_script
    rw [h]
  · unfold Addr.script_code
    rw [h]

/-- Witness for C10: a witness program with future version 5 has no
classification; `explicit_script` fails on it while `script_code`
succeeds. -/
theorem unknown_classification_asymmetry_witness :
    (Addr.new ⟨.WitnessProgram 5 [0], .Bitcoin⟩).address.address_type = none ∧
    (Addr.new ⟨.WitnessProgram 5 [0], .Bitcoin⟩).explicit_script =
      .error .AddrNoExplicitScript ∧
    (Addr.new ⟨.WitnessProgram 5 [0], .Bitcoin⟩).script_code =
      .ok (Addr.new ⟨.WitnessProgram 5 [0], .Bitcoin⟩).script_pubkey :=
  ⟨by decide,
   (unknown_classification_asymmetry _ (by decide)).1,
   (unknown_classification_asymmetry _ (by decide)).2⟩

/-- C5: `from_str` verifies the checksum first: a checksum failure is
returned unchanged whatever the address parser is (so no expression or
address parsing can have contributed), and every checksum failure is the
checksum error kind; on checksum success the stripped string is exactly
what the expression-tree parser receives; and an address-parse failure on
the single argument is propagated wrapped, unmodified. -/
theorem from_str_pipeline (ck : String → String)
    (dec : String → Except AddrParseError Address) (s : String) :
    (∀ e, verify_checksum ck s = .error e →
      ∀ dec2 : String → Except AddrParseError Address,
        Addr.from_str ck dec2 s = .error e) ∧
    (∀ e, verify_checksum ck s = .error e →
      ∃ m, e = .BadDescriptor m) ∧
    (∀ d, verify_checksum ck s = .ok d →
      Addr.from_str ck dec s =
        match Tree.from_str d with
        | .ok top => Addr.from_tree dec top
        | .error e => .error e) ∧
    (∀ d nm children e, verify_checksum ck s = .ok d →
      Tree.from_str d = .ok (.mk "addr" [.mk nm children]) →
      dec nm = .error e →
      Addr.from_str ck dec s = .error (.AddrError e)) := by
  refine ⟨?_, ?_, ?_, ?_⟩
  · intro e he dec2
    rw [Addr.from_str, he]
  · intro e he
    rw [verify_checksum] at he
    rcases hs : splitAtHash s.toList with _ | ⟨body, sum⟩
    · rw [hs] at he
      exact Except.noConfusion he
    · rw [hs] at he
      dsimp only at he
      by_cases hc : ck (String.mk body) = String.mk sum
      · rw [if_pos hc] at he
        exact Except.noConfusion he
      · rw [if_neg hc] at he
        exact ⟨"Invalid checksum", ((Except.error.injEq _ _).mp he).symm⟩
  · intro d hd
    rw [Addr.from_str, hd]
  · intro d nm children e hd ht hde
    rw [Addr.from_str, hd]
    dsimp only
    rw [ht]
    dsimp only
    rw [from_tree_addr_single, hde]

/-- Witness for C5: with a checksum primitive that always computes `GOOD`,
the input `addr(x)#BAD` fails with the checksum error even under an
address parser that would accept everything, while `addr(x)#GOOD` reaches
the always-failing address parser and propagates its error on `x`. -/
theorem from_str_pipeline_witness :
    Addr.from_str (fun _ => "GOOD")
        (fun t => .ok ⟨.PubkeyHash [t.length], .Bitcoin⟩) "addr(x)#BAD" =
      .error (.BadDescriptor "Invalid checksum") ∧
    Addr.from_str (fun _ => "GOOD") (fun t => .error ⟨t⟩) "addr(x)#GOOD" =
      .error (.AddrError ⟨"x"⟩) :=
  ⟨(from_str_pipeline (fun _ => "GOOD") (fun t => .error ⟨t⟩) "addr(x)#BAD").1
      (.BadDescriptor "Invalid checksum") rfl
      (fun t => .ok ⟨.PubkeyHash [t.length], .Bitcoin⟩),
   (from_str_pipeline (fun _ => "GOOD") (fun t => .error ⟨t⟩)
        "addr(x)#GOOD").2.2.2
      "addr(x)" "x" [] ⟨"x"⟩ rfl rfl rfl⟩

/-- C1: round trip — for any valid address (one whose textual encoding uses
no structural character `(`, `)`, `,` or `#`, as bech32/base58 encodings do,
and which the address parser decodes back to itself), parsing the full
`Display` serialization `addr(<A>)#<checksum>` of `Addr.new A` succeeds and
yields a descriptor equal to `Addr.new A`. -/
theorem addr_display_from_str_roundtrip
    (enc : Address → String) (ck : String → String)
    (dec : String → Except AddrParseError Address) (A : Address)
    (hchars : ∀ c ∈ (enc A).toList, isNameChar c = true ∧ c ≠ '#')
    (hdec : dec (enc A) = .ok A) :
    Addr.from_str ck dec (Addr.display enc ck (Addr.new A)) =
      .ok (Addr.new A) := by
  have hdisp : Addr.display enc ck (Addr.new A) =
      ("addr(" ++ enc A ++ ")") ++ "#" ++ ck ("addr(" ++ enc A ++ ")") := rfl
  have hbodyl : ("addr(" ++ enc A ++ ")").toList =
      'a' :: 'd' :: 'd' :: 'r' :: '(' :: ((enc A).toList ++ [')']) := by
    show (("addr(" ++ enc A) ++ ")").data = _
    rw [String.data_append, String.data_append]
    simp [String.toList, List.append_assoc]
  have hnh : ∀ c ∈ ("addr(" ++ enc A ++ ")").toList, c ≠ '#' := by
    intro c hc
    rw [hbodyl] at hc
    simp only [List.mem_cons, List.mem_append, List.mem_singleton,
      List.not_mem_nil, or_false] at hc
    rcases hc with rfl | rfl | rfl | rfl | rfl | hc | rfl
    · decide
    · decide
    · decide
    · decide
    · decide
    · exact (hchars c hc).2
    · decide
  have hlist : (("addr(" ++ enc A ++ ")") ++ "#" ++
      ck ("addr(" ++ enc A ++ ")")).toList =
      ("addr(" ++ enc A ++ ")").toList ++
        '#' :: (ck ("addr(" ++ enc A ++ ")")).toList := by
    show ((("addr(" ++ enc A ++ ")") ++ "#") ++ _).data = _
    rw [String.data_append, String.data_append]
    simp [String.toList, List.append_assoc]
  have hver : verify_checksum ck (("addr(" ++ enc A ++ ")") ++ "#" ++
      ck ("addr(" ++ enc A ++ ")")) = .ok ("addr(" ++ enc A ++ ")") := by
    have heta : ∀ t : String, String.mk t.toList = t := fun _ => rfl
    rw [verify_checksum, hlist, splitAtHash_append _ _ hnh]
    dsimp only
    rw [heta, heta, if_pos rfl]
  have htree : Tree.from_str ("addr(" ++ enc A ++ ")") =
      .ok (.mk "addr" [.mk (enc A) []]) :=
    tree_from_str_addr (enc A) (fun c hc => (hchars c hc).1)
  rw [hdisp, Addr.from_str, hver]
  dsimp only
  rw [htree]
  dsimp only
  rw [from_tree_addr_single, hdec]

/-- Witness for C1: with a concrete encoding sending the address to `x`, a
concrete checksum primitive, and the matching decoder, the serialized form
parses back to an equal descriptor. -/
theorem addr_display_from_str_roundtrip_witness :
    Addr.from_str (fun _ => "cksm")
        (fun s => if s = "x" then .ok ⟨.PubkeyHash [1], .Bitcoin⟩
                  else .error ⟨s⟩)
        (Addr.display (fun _ => "x") (fun _ => "cksm")
          (Addr.new ⟨.PubkeyHash [1], .Bitcoin⟩)) =
      .ok (Addr.new ⟨.PubkeyHash [1], .Bitcoin⟩) :=
  addr_display_from_str_roundtrip (fun _ => "x") (fun _ => "cksm")
    (fun s => if s = "x" then .ok ⟨.PubkeyHash [1], .Bitcoin⟩
              else .error ⟨s⟩)
    ⟨.PubkeyHash [1], .Bitcoin⟩ (by decide) rfl

end AddrDesc
